import Mathlib

/-!
# Verification of the MythaYun backend ingestion / follow / notification core

Shallow embedding of the TypeScript services of the MythaYun backend:

* `FootballDataMapper` (src/app/services/football_data_mapper.ts)
* `DataIngestionPipeline` (src/app/services/job_registry.ts, second file section)
* `JobScheduler` (src/unnamed/part_002)
* `FollowsService` and `NotificationService` (src/app/services/follows_service.ts)
* `FootballApiClient` (src/app/services/football_api_client.ts)
* the `match_events`, `follows` and `device_tokens` migrations

JavaScript ambient effects (`Date.now()`, `new Date()`, `uuidv4()`,
`DateTime.now()`) are modelled by an explicit `GenState` input carrying the
values those calls would produce; the database is modelled by explicit record
lists threaded through each operation; a thrown JS error is an `Except.error`.
-/

/-! ## Provider DTO shapes (football_api_client.ts interfaces) -/

/-- `FixtureResponse.fixture.status` -/
structure FixtureStatus where
  long : String
  short : String
  elapsed : Option Int
deriving DecidableEq

/-- `FixtureResponse.fixture.venue` -/
structure FixtureVenue where
  id : Option Nat
  name : Option String
  city : Option String
deriving DecidableEq

/-- `FixtureResponse.fixture` -/
structure FixtureCore where
  id : Nat
  date : String
  status : FixtureStatus
  venue : FixtureVenue
deriving DecidableEq

/-- `FixtureResponse.teams.home` / `.away` -/
structure TeamRef where
  id : Nat
  name : String
  logo : String
deriving DecidableEq

/-- `FixtureResponse.teams` -/
structure FixtureTeams where
  home : TeamRef
  away : TeamRef
deriving DecidableEq

/-- `FixtureResponse.goals` -/
structure GoalsPair where
  home : Option Int
  away : Option Int
deriving DecidableEq

/-- `FixtureResponse.league` -/
structure LeagueRef where
  id : Nat
  name : String
  country : String
  season : Nat
deriving DecidableEq

/-- Provider fixture DTO (football_api_client.ts `FixtureResponse`). -/
structure FixtureResponse where
  fixture : FixtureCore
  league : LeagueRef
  teams : FixtureTeams
  goals : GoalsPair
deriving DecidableEq

/-- `EventResponse.time` -/
structure EventTime where
  elapsed : Int
  extra : Option Int
deriving DecidableEq

/-- `EventResponse.player` and `EventResponse.assist` -/
structure EventPlayer where
  id : Option Nat
  name : Option String
deriving DecidableEq

/-- Provider event DTO (football_api_client.ts `EventResponse`). -/
structure EventResponse where
  time : EventTime
  team : TeamRef
  player : EventPlayer
  assist : EventPlayer
  type : String
  detail : String
  comments : Option String
deriving DecidableEq

/-! ## Ambient JS effects

`GenState` records what the JS runtime would return, at one call site, for
`Date.now()` (`nowMillis`), `new Date().toISOString()` / `DateTime.now()`
(`nowIso`) and `uuidv4()` (`uuid`).  A mapper that consults the ambient
runtime takes a `GenState`; a mapper that does not never sees one. -/

structure GenState where
  nowMillis : Int
  nowIso : String
  uuid : String
deriving DecidableEq

/-! ## FootballDataMapper (football_data_mapper.ts) -/

/-- `FootballDataMapper.getPhaseFromStatus` (football_data_mapper.ts:235-270).
A `switch` on the short status code.  For `LIVE` the source evaluates
`elapsed && elapsed > 45 ? 'SECOND_HALF' : 'FIRST_HALF'`: `null` and `0` are
falsy, so only a nonzero elapsed greater than 45 selects `SECOND_HALF`. -/
def elapsedTruthyGT45 : Option Int → Bool
  | none => false
  | some v => (v != 0) && decide (45 < v)

def getPhaseFromStatus (status : String) (elapsed : Option Int) : String :=
  if status = "NS" then "NOT_STARTED"
  else if status = "1H" then "FIRST_HALF"
  else if status = "HT" then "HALF_TIME"
  else if status = "2H" then "SECOND_HALF"
  else if status = "ET" then "EXTRA_TIME"
  else if status = "P" then "PENALTY_SHOOTOUT"
  else if status = "FT" then "FULL_TIME"
  else if status = "AET" then "AFTER_EXTRA_TIME"
  else if status = "PEN" then "AFTER_PENALTIES"
  else if status = "PST" then "POSTPONED"
  else if status = "CANC" then "CANCELLED"
  else if status = "ABD" then "ABANDONED"
  else if status = "AWD" then "AWARDED"
  else if status = "WO" then "WALKOVER"
  else if status = "LIVE" then
    (if elapsedTruthyGT45 elapsed then "SECOND_HALF" else "FIRST_HALF")
  else "UNKNOWN"

/-- The status codes with a dedicated `case` in `getPhaseFromStatus`. -/
def knownStatusCodes : List String :=
  ["NS", "1H", "HT", "2H", "ET", "P", "FT", "AET", "PEN", "PST",
   "CANC", "ABD", "AWD", "WO", "LIVE"]

/-- Every label `getPhaseFromStatus` can return. -/
def phaseLabels : List String :=
  ["NOT_STARTED", "FIRST_HALF", "HALF_TIME", "SECOND_HALF", "EXTRA_TIME",
   "PENALTY_SHOOTOUT", "FULL_TIME", "AFTER_EXTRA_TIME", "AFTER_PENALTIES",
   "POSTPONED", "CANCELLED", "ABANDONED", "AWARDED", "WALKOVER", "UNKNOWN"]

/-- Result shape of `FootballDataMapper.mapEventToResponse`
(football_data_mapper.ts `MappedEvent`). -/
structure MappedEvent where
  id : String
  ts : String
  type : String
  minute : Int
  teamId : String
  playerName : Option String
  detail : String
deriving DecidableEq

/-- `FootballDataMapper.mapEventToResponse` (football_data_mapper.ts:139-149).
The source builds `id` with a trailing `Date.now()` and sets `ts` to
`new Date().toISOString()`; both ambient reads come from `g`. -/
def mapEventToResponse (g : GenState) (event : EventResponse) (matchId : String) :
    MappedEvent :=
  { id := matchId ++ "-" ++ toString event.time.elapsed ++ "-" ++ event.type
            ++ "-" ++ toString g.nowMillis
    ts := g.nowIso
    type := event.type.toUpper
    minute := event.time.elapsed
    teamId := toString event.team.id
    playerName := event.player.name
    detail := event.detail }

/-- `detailJson` object built by `mapEventToMatchEvent`. -/
structure EventDetailJson where
  detail : String
  comments : Option String
  assist : EventPlayer
deriving DecidableEq

/-- A row of the `match_events` table (model of
src/app/models plus the 1754753700005 migration columns). -/
structure MatchEventRec where
  id : String
  matchId : String
  ts : String
  type : String
  teamId : String
  playerId : Option String
  playerName : Option String
  detailJson : EventDetailJson
  providerEventId : String
deriving DecidableEq

/-- The dedup key `FootballDataMapper.mapEventToMatchEvent` composes:
`matchId-elapsed-type-teamId` (football_data_mapper.ts:192). -/
def mkProviderEventId (matchId : String) (elapsed : Int) (ty : String)
    (teamId : Nat) : String :=
  matchId ++ "-" ++ toString elapsed ++ "-" ++ ty ++ "-" ++ toString teamId

/-- `FootballDataMapper.mapEventToMatchEvent` (football_data_mapper.ts:178-194).
`id` is `uuidv4()` and `ts` is `DateTime.now()` — both ambient, from `g`. -/
def mapEventToMatchEvent (g : GenState) (event : EventResponse)
    (matchId : String) : MatchEventRec :=
  { id := g.uuid
    matchId := matchId
    ts := g.nowIso
    type := event.type.toUpper
    teamId := toString event.team.id
    playerId := event.player.id.map toString
    playerName := event.player.name
    detailJson :=
      { detail := event.detail
        comments := event.comments
        assist := event.assist }
    providerEventId :=
      mkProviderEventId matchId event.time.elapsed event.type event.team.id }

/-! ## Match / MatchState rows and the fixture mappers -/

/-- A row of the `matches` table as written by the pipeline.  The JSON
`provider_ids` map holds a single key `football_api_id`, modelled by
`providerApiId` (football_data_mapper.ts:161-163). -/
structure MatchRec where
  id : String
  leagueId : String
  season : Nat
  homeTeamId : String
  awayTeamId : String
  venueId : Option String
  startTime : String
  status : String
  providerApiId : Nat
deriving DecidableEq

/-- `FootballDataMapper.mapFixtureToMatch` (football_data_mapper.ts:151-165). -/
def mapFixtureToMatch (fx : FixtureResponse) : MatchRec :=
  { id := toString fx.fixture.id
    leagueId := toString fx.league.id
    season := fx.league.season
    homeTeamId := toString fx.teams.home.id
    awayTeamId := toString fx.teams.away.id
    venueId := fx.fixture.venue.id.map toString
    startTime := fx.fixture.date
    status := fx.fixture.status.short
    providerApiId := fx.fixture.id }

/-- A row of the `match_states` table. -/
structure MatchStateRec where
  matchId : String
  minute : Option Int
  phase : String
  homeScore : Int
  awayScore : Int
  lastEventId : Option String
deriving DecidableEq

/-- `FootballDataMapper.mapFixtureToMatchState` (football_data_mapper.ts:167-176).
`fixture.goals.home || 0` maps `null` (and `0`) to `0`. -/
def mapFixtureToMatchState (fx : FixtureResponse) : MatchStateRec :=
  { matchId := toString fx.fixture.id
    minute := fx.fixture.status.elapsed
    phase := getPhaseFromStatus fx.fixture.status.short fx.fixture.status.elapsed
    homeScore := fx.goals.home.getD 0
    awayScore := fx.goals.away.getD 0
    lastEventId := none }

/-! ## DataIngestionPipeline (job_registry.ts, `DataIngestionPipeline` class) -/

/-- `IngestionMetrics` (job_registry.ts:346-357), counters only; the
wall-clock start/end/duration fields are ambient and carried nowhere a claim
looks. -/
structure IngestionMetrics where
  matchesProcessed : Nat
  matchesCreated : Nat
  matchesUpdated : Nat
  eventsCreated : Nat
  errors : Nat
  apiCalls : Nat
deriving DecidableEq

/-- `resetMetrics` (job_registry.ts:842-853). -/
def resetMetricsValue : IngestionMetrics :=
  { matchesProcessed := 0, matchesCreated := 0, matchesUpdated := 0
    eventsCreated := 0, errors := 0, apiCalls := 0 }

/-- The database state the daily-fixtures pipeline reads and writes:
`matches`, `teams`, `venues`, `match_states`, plus the run metrics.
Team and venue rows are tracked by their dedup keys (`id` for teams,
`provider_id` for venues): no claim observes their other columns. -/
structure IngestState where
  matchesTable : List MatchRec
  teamIds : List String
  venueProviderIds : List Nat
  states : List MatchStateRec
  metrics : IngestionMetrics
deriving DecidableEq

/-- The existing-match lookup of `processSingleFixture`
(job_registry.ts:614-617): `where('id', fixtureId)
.orWhere('provider_ids->football_api_id', fixture.fixture.id)`. -/
def fixtureKey (fid : Nat) (m : MatchRec) : Bool :=
  m.id == toString fid || m.providerApiId == fid

/-- `.first()` + `merge().save()`: update the first row the predicate
matches, leave the rest untouched. -/
def updateFirst (p : α → Bool) (f : α → α) : List α → List α
  | [] => []
  | x :: xs => if p x then f x :: xs else x :: updateFirst p f xs

/-- `updateExistingMatch` (job_registry.ts:661-672): merge status, start
time and the provider-ids map into the found row. -/
def updateExistingMatch (m : MatchRec) (fx : FixtureResponse) : MatchRec :=
  { m with
    status := fx.fixture.status.short
    startTime := fx.fixture.date
    providerApiId := fx.fixture.id }

/-- `ensureTeamExists` (job_registry.ts:737-745): create on miss, keyed by
the stringified provider team id. -/
def ensureTeamExists (teamId : String) (teamIds : List String) : List String :=
  if teamIds.contains teamId then teamIds else teamIds ++ [teamId]

/-- `ensureVenueExists` (job_registry.ts:750-773): create on miss, keyed by
the provider venue id; skipped entirely when the fixture has no venue id. -/
def ensureVenueExists (venueId : Option Nat) (venueIds : List Nat) : List Nat :=
  match venueId with
  | none => venueIds
  | some vid => if venueIds.contains vid then venueIds else venueIds ++ [vid]

/-- `isLiveMatch` (job_registry.ts:801-804). -/
def isLiveMatch (fx : FixtureResponse) : Bool :=
  ["1H", "2H", "HT", "ET", "LIVE"].contains fx.fixture.status.short

/-- `updateMatchState` (job_registry.ts:677-689): upsert keyed by match id;
`merge(stateData)` overwrites every column, so the update installs the new
snapshot. -/
def upsertMatchState (fx : FixtureResponse) (states : List MatchStateRec) :
    List MatchStateRec :=
  let sd := mapFixtureToMatchState fx
  if states.any (fun s => s.matchId == sd.matchId) then
    updateFirst (fun s => s.matchId == sd.matchId) (fun _ => sd) states
  else states ++ [sd]

/-- `processSingleFixture` (job_registry.ts:609-638): look up by id or
provider id; update the found match else create it (creating referenced
teams and the venue first), then upsert the match state when the fixture is
live or the run is a live pass. -/
def processSingleFixture (isLiveUpdate : Bool) (st : IngestState)
    (fx : FixtureResponse) : IngestState :=
  let fid := fx.fixture.id
  let st1 :=
    if st.matchesTable.any (fixtureKey fid) then
      { st with
        matchesTable := updateFirst (fixtureKey fid)
          (fun m => updateExistingMatch m fx) st.matchesTable
        metrics := { st.metrics with
          matchesUpdated := st.metrics.matchesUpdated + 1 } }
    else
      { st with
        teamIds := ensureTeamExists (toString fx.teams.away.id)
          (ensureTeamExists (toString fx.teams.home.id) st.teamIds)
        venueProviderIds := ensureVenueExists fx.fixture.venue.id
          st.venueProviderIds
        matchesTable := st.matchesTable ++ [mapFixtureToMatch fx]
        metrics := { st.metrics with
          matchesCreated := st.metrics.matchesCreated + 1 } }
  if isLiveUpdate || isLiveMatch fx then
    { st1 with states := upsertMatchState fx st1.states }
  else st1

/-- `chunkArray` (job_registry.ts:830-836).  The JS loop `i += size` never
terminates on `size = 0`; the pipeline only ever calls it with the positive
configured batch size, and the theorems carry that hypothesis. -/
def chunkArray (xs : List α) (size : Nat) : List (List α) :=
  if hsz : size = 0 then []
  else
    match xs with
    | [] => []
    | x :: rest => (x :: rest).take size :: chunkArray ((x :: rest).drop size) size
termination_by xs.length
decreasing_by
  simp only [List.length_drop, List.length_cons]
  omega

/-- The inner per-batch loop of `processFixtureBatch`
(job_registry.ts:588-592): process each fixture of the batch in order. -/
def processBatchList (isLiveUpdate : Bool) (st : IngestState)
    (fxs : List FixtureResponse) : IngestState :=
  fxs.foldl (processSingleFixture isLiveUpdate) st

/-- `processFixtureBatch` (job_registry.ts:582-604): chunk the fixtures,
run each chunk, and account the chunk length into `matchesProcessed`.
The model has no failing transactions, so the retry path never runs. -/
def processFixtureBatch (batchSize : Nat) (isLiveUpdate : Bool)
    (st : IngestState) (fxs : List FixtureResponse) : IngestState :=
  (chunkArray fxs batchSize).foldl
    (fun st batch =>
      let st1 := processBatchList isLiveUpdate st batch
      { st1 with metrics := { st1.metrics with
          matchesProcessed := st1.metrics.matchesProcessed + batch.length } })
    st

/-- One iteration of the league loop of `ingestDailyFixtures` via
`ingestLeagueFixturesForLeague` (job_registry.ts:548-577): count the API
call, return early on an empty fixture list, else process the batch.
`fxs` is the provider's fixture list for that league and date. -/
def ingestLeagueStep (batchSize : Nat) (st : IngestState)
    (fxs : List FixtureResponse) : IngestState :=
  let st1 := { st with metrics := { st.metrics with
    apiCalls := st.metrics.apiCalls + 1 } }
  if fxs.isEmpty then st1 else processFixtureBatch batchSize false st1 fxs

/-- `ingestDailyFixtures` (job_registry.ts:431-463): reset the metrics,
then process each target league's fixture list in order.  `leagueFixtures`
is what the provider returns per configured league for the requested date. -/
def ingestDailyFixtures (batchSize : Nat)
    (leagueFixtures : List (List FixtureResponse)) (st : IngestState) :
    IngestState :=
  leagueFixtures.foldl (ingestLeagueStep batchSize)
    { st with metrics := resetMetricsValue }

/-- Number of `matches` rows whose primary key is `s`. -/
def countMatchId (ms : List MatchRec) (s : String) : Nat :=
  ms.countP (fun m => m.id == s)

/-! ## Match-event ingestion (job_registry.ts `processMatchEvent`) -/

/-- `MatchEvent.create` against the `match_events` table: the migration
(1754753700005, line 16) declares `provider_event_id` unique, so an insert
whose `providerEventId` already exists anywhere in the table raises a
constraint violation (`none`) instead of inserting. -/
def createMatchEvent (store : List MatchEventRec) (e : MatchEventRec) :
    Option (List MatchEventRec) :=
  if store.any (fun r => r.providerEventId == e.providerEventId) then none
  else some (store ++ [e])

/-- Outcome of `processMatchEvent`: the new table contents, whether a row
was inserted (`eventsCreated` incremented), and whether the insert raised. -/
structure ProcessEventResult where
  store : List MatchEventRec
  created : Bool
  raised : Bool
deriving DecidableEq

/-- `processMatchEvent` (job_registry.ts:719-732): map the event, look for
an existing row with the same match id and provider event id, and insert
only when none is found; the unique constraint is the backstop. -/
def processMatchEvent (g : GenState) (event : EventResponse)
    (matchId : String) (store : List MatchEventRec) : ProcessEventResult :=
  let eventData := mapEventToMatchEvent g event matchId
  match store.find? (fun r =>
      r.matchId == matchId && r.providerEventId == eventData.providerEventId) with
  | some _ => { store := store, created := false, raised := false }
  | none =>
    match createMatchEvent store eventData with
    | some s => { store := s, created := true, raised := false }
    | none => { store := store, created := false, raised := true }

/-- Number of `match_events` rows carrying a given `provider_event_id`. -/
def countEventPid (store : List MatchEventRec) (pid : String) : Nat :=
  store.countP (fun r => r.providerEventId == pid)

/-- No two rows share a `provider_event_id` — the invariant the unique
constraint maintains. -/
def noDupProviderEventId (store : List MatchEventRec) : Prop :=
  ∀ pid, countEventPid store pid ≤ 1

/-! ## JobScheduler (src/unnamed/part_002)

Node runs the scheduler on a single-threaded event loop: the guard check and
the `running = true` assignment in both the cron callback (lines 66-98) and
`triggerJob` (lines 172-194) execute with no `await` between them, so each
check-and-set is one atomic step; interleaving can only happen while the
awaited task body is in flight.  The model is a transition system on one
job's state whose atomic actions are those synchronous segments;
`tasksInFlight` counts task bodies that have started and not yet finished. -/

structure JobState where
  enabled : Bool
  running : Bool
  shuttingDown : Bool
  tasksInFlight : Nat
deriving DecidableEq

/-- State of a job right after `registerJob` (registered with
`running: false`, no task started). -/
def registeredJobState (enabled : Bool) : JobState :=
  { enabled := enabled, running := false, shuttingDown := false
    tasksInFlight := 0 }

/-- A cron fire (part_002 lines 66-83): return early when disabled or
shutting down; skip (drop, do not queue) when `running`; otherwise set
`running` and start the task body.  The `Bool` reports whether a task body
started. -/
def cronFireStep (s : JobState) : JobState × Bool :=
  if !s.enabled || s.shuttingDown then (s, false)
  else if s.running then (s, false)
  else ({ s with running := true, tasksInFlight := s.tasksInFlight + 1 }, true)

/-- `triggerJob` up to starting the task (part_002 lines 178-186): throw
`already running` when `running`; otherwise set `running` and start the
task body.  The `Bool` reports whether a task body started. -/
def triggerStep (s : JobState) : JobState × Bool :=
  if s.running then (s, false)
  else ({ s with running := true, tasksInFlight := s.tasksInFlight + 1 }, true)

/-- Task completion: the `finally` blocks (part_002 lines 94-97 and
191-193) clear `running`; the started body leaves flight. -/
def finishStep (s : JobState) : JobState :=
  { s with running := false, tasksInFlight := s.tasksInFlight - 1 }

/-- The observable actions that touch one job's guard state. -/
inductive JobAction where
  | cronFire
  | trigger
  | finishTask
  | startJob
  | stopJob
  | beginShutdown
deriving DecidableEq

/-- One atomic scheduler step (`startJob` / `stopJob` are part_002 lines
113-136, shutdown sets the flag at line 204). -/
def jobStep (s : JobState) : JobAction → JobState
  | .cronFire => (cronFireStep s).1
  | .trigger => (triggerStep s).1
  | .finishTask => finishStep s
  | .startJob => { s with enabled := true }
  | .stopJob => { s with enabled := false }
  | .beginShutdown => { s with shuttingDown := true }

/-- Run an arbitrary interleaving of scheduler actions on one job. -/
def runJob (s : JobState) (acts : List JobAction) : JobState :=
  acts.foldl jobStep s

/-! ## NotificationService (follows_service.ts, `NotificationService` class) -/

/-- A row of the `device_tokens` table (models/device_token.ts; the
token string and the metadata columns play no role in failure handling
beyond identifying the row). -/
structure DeviceTokenRec where
  id : String
  userId : String
  token : String
  platform : String
  isActive : Bool
deriving DecidableEq

/-- `admin.FirebaseError`, reduced to the `code` the service inspects. -/
structure FirebaseErrorRec where
  code : String
deriving DecidableEq

/-- One entry of `sendEachForMulticast().responses`. -/
structure SendResponse where
  success : Bool
  error : Option FirebaseErrorRec
deriving DecidableEq

/-- `NotificationService.isInvalidTokenError` (follows_service.ts:1272-1281). -/
def isInvalidTokenError (error : Option FirebaseErrorRec) : Bool :=
  match error with
  | none => false
  | some err =>
    ["messaging/invalid-registration-token",
     "messaging/registration-token-not-registered"].contains err.code

/-- The `invalidTokens` list collected by `handleFailedTokens`
(follows_service.ts:1237-1243): the tokens at the positions whose response
failed with an invalid-token error code. -/
def collectInvalidTokens (responses : List SendResponse)
    (tokens : List DeviceTokenRec) : List DeviceTokenRec :=
  ((responses.zip tokens).filter
    (fun p => !p.1.success && isInvalidTokenError p.1.error)).map (·.2)

/-- One `token.isActive = false; token.save()` (follows_service.ts:1248-1253):
deactivate the store row with that id. -/
def deactivateToken (store : List DeviceTokenRec) (tokId : String) :
    List DeviceTokenRec :=
  store.map (fun t => if t.id == tokId then { t with isActive := false } else t)

/-- `NotificationService.handleFailedTokens` (follows_service.ts:1233-1267):
deactivate exactly the collected invalid tokens. -/
def handleFailedTokens (responses : List SendResponse)
    (tokens : List DeviceTokenRec) (store : List DeviceTokenRec) :
    List DeviceTokenRec :=
  (collectInvalidTokens responses tokens).foldl
    (fun st tok => deactivateToken st tok.id) store

/-! ## FollowsService (follows_service.ts, `FollowsService` class) -/

/-- A `users` row, reduced to what `followEntity` reads. -/
structure UserRec where
  id : String
  isActive : Bool
deriving DecidableEq

/-- Per-follow notification preference flags (models/follow.ts). -/
structure NotificationPrefs where
  goals : Bool
  cards : Bool
  substitutions : Bool
  matchStart : Bool
  matchEnd : Bool
  lineups : Bool
deriving DecidableEq

/-- The caller-provided preference object of `FollowRequest`: every flag
optional; an absent flag is `none`.  (JS object spread copies only the keys
the caller's object has.) -/
structure PrefOverrides where
  goals : Option Bool
  cards : Option Bool
  substitutions : Option Bool
  matchStart : Option Bool
  matchEnd : Option Bool
  lineups : Option Bool
deriving DecidableEq

/-- The empty override object (caller supplied `{}` or nothing). -/
def noOverrides : PrefOverrides :=
  { goals := none, cards := none, substitutions := none
    matchStart := none, matchEnd := none, lineups := none }

/-- `getDefaultNotificationPreferences` (follows_service.ts:578-587). -/
def getDefaultNotificationPreferences : NotificationPrefs :=
  { goals := true, cards := false, substitutions := false
    matchStart := true, matchEnd := true, lineups := false }

/-- `{...defaults, ...provided}` (follows_service.ts:98-101): a key the
caller's object carries wins; an absent key keeps the default. -/
def mergePreferences (d : NotificationPrefs) (p : PrefOverrides) :
    NotificationPrefs :=
  { goals := p.goals.getD d.goals
    cards := p.cards.getD d.cards
    substitutions := p.substitutions.getD d.substitutions
    matchStart := p.matchStart.getD d.matchStart
    matchEnd := p.matchEnd.getD d.matchEnd
    lineups := p.lineups.getD d.lineups }

/-- A `follows` row (models/follow.ts; `isActive` defaults to true on
creation — `followEntity` passes only `status: 'active'`). -/
structure FollowRec where
  id : String
  userId : String
  entityType : String
  entityId : String
  notificationPreferences : NotificationPrefs
  status : String
  isActive : Bool
deriving DecidableEq

/-- `followEntity`'s request (follows_service.ts `FollowRequest`).  The
TS type restricts `entityType` to lowercase literals, but the convenience
methods bypass it with uppercase strings, so the model keeps `String`. -/
structure FollowRequest where
  userId : String
  entityType : String
  entityId : String
  notificationPreferences : Option PrefOverrides
deriving DecidableEq

/-- The typed domain errors `followEntity` throws (`new Error(...)`
messages, follows_service.ts lines 72, 549, 553, 86, 574). -/
inductive FollowError where
  | userNotFoundOrInactive
  | invalidEntityType (entityType : String)
  | entityNotFound (entityType entityId : String)
  | alreadyFollowing (entityType : String)
  | followLimitReached (entityType : String) (limit : Nat)
deriving DecidableEq

/-- The store `FollowsService` reads and writes: users, the three entity
tables (by primary key — `validateEntity` only checks existence), and the
`follows` table. -/
structure FollowsDb where
  users : List UserRec
  teamIds : List String
  leagueIds : List String
  matchIds : List String
  follows : List FollowRec
deriving DecidableEq

/-- `validateEntity` (follows_service.ts:535-555): a `switch` on the
lowercase entity-type strings; any other string hits `default` and throws
`Invalid entity type`. -/
def validateEntity (db : FollowsDb) (entityType entityId : String) :
    Except FollowError Unit :=
  if entityType = "team" then
    if db.teamIds.contains entityId then .ok ()
    else .error (.entityNotFound entityType entityId)
  else if entityType = "league" then
    if db.leagueIds.contains entityId then .ok ()
    else .error (.entityNotFound entityType entityId)
  else if entityType = "match" then
    if db.matchIds.contains entityId then .ok ()
    else .error (.entityNotFound entityType entityId)
  else .error (.invalidEntityType entityType)

/-- The `limits` table of `checkFollowLimits` (follows_service.ts:558-562);
`limits[t]` is `undefined` for any other string, and `count >= undefined`
is false in JS, so no limit applies then. -/
def followLimitFor : String → Option Nat
  | "team" => some 50
  | "league" => some 20
  | "match" => some 100
  | _ => none

/-- Active follows a user has for one entity type (the count query of
`checkFollowLimits`, follows_service.ts:564-568). -/
def activeFollowCount (db : FollowsDb) (userId entityType : String) : Nat :=
  db.follows.countP (fun f =>
    f.userId == userId && f.entityType == entityType && f.isActive)

/-- `checkFollowLimits` (follows_service.ts:557-576). -/
def checkFollowLimits (db : FollowsDb) (userId entityType : String) :
    Except FollowError Unit :=
  match followLimitFor entityType with
  | none => .ok ()
  | some l =>
    if l ≤ activeFollowCount db userId entityType then
      .error (.followLimitReached entityType l)
    else .ok ()

/-- The duplicate-follow lookup (follows_service.ts:79-83). -/
def hasFollowTriple (db : FollowsDb) (userId entityType entityId : String) :
    Bool :=
  db.follows.any (fun f =>
    f.userId == userId && f.entityType == entityType && f.entityId == entityId)

/-- Number of `follows` rows for one (user, entityType, entityId) triple. -/
def countFollowTriple (db : FollowsDb) (userId entityType entityId : String) :
    Nat :=
  db.follows.countP (fun f =>
    f.userId == userId && f.entityType == entityType && f.entityId == entityId)

/-- The argument record of `Follow.create` (follows_service.ts:93-103):
uuid primary key, the request triple, the merged preferences, status
`active`; `isActive` takes the column default `true`. -/
def mkFollowRow (newId : String) (req : FollowRequest) : FollowRec :=
  { id := newId
    userId := req.userId
    entityType := req.entityType
    entityId := req.entityId
    notificationPreferences :=
      mergePreferences getDefaultNotificationPreferences
        (req.notificationPreferences.getD noOverrides)
    status := "active"
    isActive := true }

/-- The store after a successful `Follow.create`. -/
def dbAfterFollow (newId : String) (req : FollowRequest) (db : FollowsDb) :
    FollowsDb :=
  { db with follows := db.follows ++ [mkFollowRow newId req] }

/-- `FollowsService.followEntity` (follows_service.ts:65-120): validate the
user is active, validate the entity, reject duplicates, enforce the
per-type limit, then create the follow with merged preferences.  `newId`
is the `uuidv4()` the runtime would generate. -/
def followEntity (newId : String) (req : FollowRequest) (db : FollowsDb) :
    Except FollowError (FollowRec × FollowsDb) :=
  match db.users.find? (fun u => u.id == req.userId) with
  | none => .error .userNotFoundOrInactive
  | some user =>
    if !user.isActive then .error .userNotFoundOrInactive
    else
      match validateEntity db req.entityType req.entityId with
      | .error e => .error e
      | .ok _ =>
        if hasFollowTriple db req.userId req.entityType req.entityId then
          .error (.alreadyFollowing req.entityType)
        else
          match checkFollowLimits db req.userId req.entityType with
          | .error e => .error e
          | .ok _ =>
            .ok (mkFollowRow newId req, dbAfterFollow newId req db)

/-- `FollowsService.followTeam` (follows_service.ts:381-388): passes the
uppercase literal `TEAM` as the entity type. -/
def followTeam (newId : String) (userId teamId : String)
    (prefs : Option PrefOverrides) (db : FollowsDb) :
    Except FollowError (FollowRec × FollowsDb) :=
  followEntity newId
    { userId := userId, entityType := "TEAM", entityId := teamId
      notificationPreferences := prefs } db

/-- `FollowsService.followLeague` (follows_service.ts:393-400). -/
def followLeague (newId : String) (userId leagueId : String)
    (prefs : Option PrefOverrides) (db : FollowsDb) :
    Except FollowError (FollowRec × FollowsDb) :=
  followEntity newId
    { userId := userId, entityType := "LEAGUE", entityId := leagueId
      notificationPreferences := prefs } db

/-- `FollowsService.followMatch` (follows_service.ts:405-412). -/
def followMatch (newId : String) (userId matchId : String)
    (prefs : Option PrefOverrides) (db : FollowsDb) :
    Except FollowError (FollowRec × FollowsDb) :=
  followEntity newId
    { userId := userId, entityType := "MATCH", entityId := matchId
      notificationPreferences := prefs } db

/-- `FollowsService.bulkFollowTeams` (follows_service.ts:438-453): try each
team id in order; a success threads the updated store and records the id in
`successful`, a caught error records it in `failed`.  `newIds n` is the
uuid the n-th creation would draw. -/
def bulkFollowTeams (newIds : Nat → String) (userId : String) :
    List String → FollowsDb → List String × List String × FollowsDb
  | [], db => ([], [], db)
  | teamId :: rest, db =>
    match followTeam (newIds 0) userId teamId none db with
    | .ok (_, db1) =>
      let r := bulkFollowTeams (fun n => newIds (n + 1)) userId rest db1
      (teamId :: r.1, r.2.1, r.2.2)
    | .error _ =>
      let r := bulkFollowTeams (fun n => newIds (n + 1)) userId rest db
      (r.1, teamId :: r.2.1, r.2.2)

/-! ## FootballApiClient (football_api_client.ts)

`getFixtureStatistics` and `getFixtureLineups` wrap
`return this.makeRequest(...)` in `try/catch`.  An `async` function never
throws synchronously — calling it yields a promise — and `return`ing that
promise without `await` adopts its state, so the `catch` clause can only
fire on a synchronous throw, which the body cannot produce.  The model
makes that semantics explicit. -/

/-- A settled JS promise: fulfilled or rejected with an error. -/
inductive JsError where
  | httpStatus (code : Nat)
  | network (message : String)
deriving DecidableEq

/-- Outcome of the underlying `undici` request. -/
inductive HttpOutcome (α : Type) where
  | netFail (message : String)
  | response (statusCode : Nat) (body : α)
deriving DecidableEq

/-- `makeRequest` (football_api_client.ts:167-214): reject on a transport
failure, throw (reject) on a non-200 status, else fulfill with the parsed
body; its own `catch` logs and rethrows. -/
def makeRequest (outcome : HttpOutcome α) : Except JsError α :=
  match outcome with
  | .netFail msg => .error (.network msg)
  | .response code body =>
    if code = 200 then .ok body else .error (.httpStatus code)

/-- What the synchronous part of a JS function body does before the outer
promise settles: return a promise, or throw. -/
inductive SyncOutcome (α : Type) where
  | retPromise (p : Except JsError α)
  | thrown (e : JsError)

/-- Calling an `async` function never throws synchronously: it returns a
promise carrying the function's eventual result. -/
def callAsync (r : Except JsError α) : SyncOutcome α := .retPromise r

/-- `try { return <promise> } catch (e) { <handler> }` with no `await`:
the handler runs only on a synchronous throw; a returned promise is adopted
as-is, so its rejection bypasses the handler. -/
def tryCatchNoAwait (body : SyncOutcome α)
    (handler : JsError → Except JsError α) : Except JsError α :=
  match body with
  | .retPromise p => p
  | .thrown e => handler e

/-- `getFixtureStatistics` (football_api_client.ts:255-264), parameterized
by the provider outcome for that fixture; `α` is the `StatisticsResponse`
payload, whose fields the function never inspects.  The source's comment
says the catch returns `[]` "instead of throwing to maintain app
stability". -/
def getFixtureStatistics (providerOutcome : HttpOutcome (List α)) :
    Except JsError (List α) :=
  tryCatchNoAwait (callAsync (makeRequest providerOutcome)) (fun _ => .ok [])

/-- `getFixtureLineups` (football_api_client.ts:270-278), same shape over
the `any[]` lineup payload. -/
def getFixtureLineups (providerOutcome : HttpOutcome (List α)) :
    Except JsError (List α) :=
  tryCatchNoAwait (callAsync (makeRequest providerOutcome)) (fun _ => .ok [])

/-! ## Projection used by the ingestion proofs

`mcuView` projects an `IngestState` to the components the idempotence claim
observes — the `matches` rows and the created/updated counters — and
`mcuStep` is how one `processSingleFixture` call moves that projection
(the team/venue/state writes and the `matchesProcessed`/`apiCalls` bumps
leave it unchanged, proved below). -/

structure MCUView where
  rows : List MatchRec
  created : Nat
  updated : Nat
deriving DecidableEq

def mcuView (st : IngestState) : MCUView :=
  { rows := st.matchesTable
    created := st.metrics.matchesCreated
    updated := st.metrics.matchesUpdated }

def mcuStep (m : MCUView) (fx : FixtureResponse) : MCUView :=
  if m.rows.any (fixtureKey fx.fixture.id) then
    { m with
      rows := updateFirst (fixtureKey fx.fixture.id)
        (fun r => updateExistingMatch r fx) m.rows
      updated := m.updated + 1 }
  else
    { m with
      rows := m.rows ++ [mapFixtureToMatch fx]
      created := m.created + 1 }

/-- Every row satisfies the pipeline's key coherence: its primary key is
the stringified provider id (`mapFixtureToMatch` creates rows that way and
`updateExistingMatch` rewrites `providerApiId` to the id that matched). -/
def rowsCoherent (ms : List MatchRec) : Prop :=
  ∀ m ∈ ms, m.id = toString m.providerApiId

/-- No two rows share a primary key. -/
def noDupMatchId (ms : List MatchRec) : Prop :=
  ∀ s, countMatchId ms s ≤ 1

/-! ## Concrete sample data for witnesses and counterexamples -/

/-- A provider goal event as api-football returns it. -/
def sampleEvent : EventResponse :=
  { time := { elapsed := 23, extra := none }
    team := { id := 50, name := "Manchester City", logo := "mc.png" }
    player := { id := some 9, name := some "E. Haaland" }
    assist := { id := none, name := none }
    type := "Goal"
    detail := "Normal Goal"
    comments := none }

/-- Ambient runtime state of a first call. -/
def genA : GenState :=
  { nowMillis := 1754900000000
    nowIso := "2025-08-11T10:00:00.000Z"
    uuid := "7f000001-aaaa-bbbb-cccc-000000000001" }

/-- Ambient runtime state of a later call: the clock has advanced and the
uuid draw differs. -/
def genB : GenState :=
  { nowMillis := 1754900000456
    nowIso := "2025-08-11T10:00:00.456Z"
    uuid := "7f000001-aaaa-bbbb-cccc-000000000002" }

/-- A provider fixture with status `NS`. -/
def sampleFixture : FixtureResponse :=
  { fixture :=
      { id := 215662
        date := "2025-08-09T14:00:00+00:00"
        status := { long := "Not Started", short := "NS", elapsed := none }
        venue := { id := some 556, name := some "Old Trafford"
                   city := some "Manchester" } }
    league := { id := 39, name := "Premier League", country := "England"
                season := 2025 }
    teams :=
      { home := { id := 33, name := "Manchester United", logo := "mu.png" }
        away := { id := 50, name := "Manchester City", logo := "mc.png" } }
    goals := { home := none, away := none } }

/-- An empty follows store. -/
def emptyFollowsDb : FollowsDb :=
  { users := [], teamIds := [], leagueIds := [], matchIds := [], follows := [] }

/-- Store with one active user and one team, no follows yet. -/
def sampleFollowsDb : FollowsDb :=
  { users := [{ id := "u1", isActive := true }]
    teamIds := ["t50"]
    leagueIds := ["L99"]
    matchIds := []
    follows := [] }

/-- A follow request for that team with two explicit preference flags. -/
def sampleFollowRequest : FollowRequest :=
  { userId := "u1", entityType := "team", entityId := "t50"
    notificationPreferences := some
      { goals := some false, cards := none, substitutions := none
        matchStart := none, matchEnd := none, lineups := some true } }

/-- A league-follow request used against the at-limit store. -/
def limitFollowRequest : FollowRequest :=
  { userId := "u1", entityType := "league", entityId := "L99"
    notificationPreferences := none }

/-- Twenty active league follows of user `u1` to other leagues — exactly
the `league` follow limit. -/
def twentyLeagueFollows : List FollowRec :=
  (List.range 20).map (fun i =>
    { id := "lf" ++ toString i
      userId := "u1"
      entityType := "league"
      entityId := "other" ++ toString i
      notificationPreferences := getDefaultNotificationPreferences
      status := "active"
      isActive := true })

/-- Store whose user `u1` is active, target league `L99` exists, and `u1`
already holds 20 active league follows. -/
def atLimitFollowsDb : FollowsDb :=
  { users := [{ id := "u1", isActive := true }]
    teamIds := []
    leagueIds := ["L99"]
    matchIds := []
    follows := twentyLeagueFollows }

/-- Three registered device tokens of one user, all active. -/
def tokenA : DeviceTokenRec :=
  { id := "dt1", userId := "u1", token := "tokA", platform := "android"
    isActive := true }

def tokenB : DeviceTokenRec :=
  { id := "dt2", userId := "u1", token := "tokB", platform := "android"
    isActive := true }

def tokenC : DeviceTokenRec :=
  { id := "dt3", userId := "u1", token := "tokC", platform := "android"
    isActive := true }

/-- Multicast responses: first and third delivered, second permanently
invalid. -/
def sampleResponses : List SendResponse :=
  [{ success := true, error := none },
   { success := false
     error := some { code := "messaging/registration-token-not-registered" } },
   { success := true, error := none }]

/-- A fresh ingestion state: empty store, zeroed metrics. -/
def emptyIngestState : IngestState :=
  { matchesTable := [], teamIds := [], venueProviderIds := [], states := []
    metrics := resetMetricsValue }

deriving instance DecidableEq for Except

/-! # Theorems -/

/-- Membership distributes over a two-way branch (helper for totality). -/
theorem iteMemList {c : Prop} [Decidable c] {α : Type} {a b : α}
    {l : List α} (ha : a ∈ l) (hb : b ∈ l) : (if c then a else b) ∈ l := by
  by_cases h : c
  · rw [if_pos h]; exact ha
  · rw [if_neg h]; exact hb

/-- C3: `getPhaseFromStatus` is total and matches the documented table on
every (status, elapsed) pair: each enumerated code maps to its label for
every elapsed value; `LIVE` maps to `SECOND_HALF` exactly when elapsed is
greater than 45 and to `FIRST_HALF` otherwise, including a null elapsed;
every unrecognized code maps to `UNKNOWN`; and the function is total — its
value on any input whatsoever is one of the sixteen labels (it never
throws). -/
theorem getPhaseFromStatus_table :
    (∀ e, getPhaseFromStatus "NS" e = "NOT_STARTED") ∧
    (∀ e, getPhaseFromStatus "1H" e = "FIRST_HALF") ∧
    (∀ e, getPhaseFromStatus "HT" e = "HALF_TIME") ∧
    (∀ e, getPhaseFromStatus "2H" e = "SECOND_HALF") ∧
    (∀ e, getPhaseFromStatus "ET" e = "EXTRA_TIME") ∧
    (∀ e, getPhaseFromStatus "P" e = "PENALTY_SHOOTOUT") ∧
    (∀ e, getPhaseFromStatus "FT" e = "FULL_TIME") ∧
    (∀ e, getPhaseFromStatus "AET" e = "AFTER_EXTRA_TIME") ∧
    (∀ e, getPhaseFromStatus "PEN" e = "AFTER_PENALTIES") ∧
    (∀ e, getPhaseFromStatus "PST" e = "POSTPONED") ∧
    (∀ e, getPhaseFromStatus "CANC" e = "CANCELLED") ∧
    (∀ e, getPhaseFromStatus "ABD" e = "ABANDONED") ∧
    (∀ e, getPhaseFromStatus "AWD" e = "AWARDED") ∧
    (∀ e, getPhaseFromStatus "WO" e = "WALKOVER") ∧
    (∀ v : Int, 45 < v →
      getPhaseFromStatus "LIVE" (some v) = "SECOND_HALF") ∧
    (∀ v : Int, v ≤ 45 →
      getPhaseFromStatus "LIVE" (some v) = "FIRST_HALF") ∧
    (getPhaseFromStatus "LIVE" none = "FIRST_HALF") ∧
    (∀ s e, s ∉ knownStatusCodes → getPhaseFromStatus s e = "UNKNOWN") ∧
    (∀ s e, getPhaseFromStatus s e ∈ phaseLabels) := by
  refine ⟨fun e => rfl, fun e => rfl, fun e => rfl, fun e => rfl, fun e => rfl,
    fun e => rfl, fun e => rfl, fun e => rfl, fun e => rfl, fun e => rfl,
    fun e => rfl, fun e => rfl, fun e => rfl, fun e => rfl, ?_, ?_, rfl,
    ?_, ?_⟩
  · intro v hv
    have h0 : v ≠ 0 := by omega
    simp [getPhaseFromStatus, elapsedTruthyGT45, hv, h0]
  · intro v hv
    have h45 : ¬(45 < v) := by omega
    simp [getPhaseFromStatus, elapsedTruthyGT45, h45]
  · intro s e hs
    simp only [knownStatusCodes, List.mem_cons, List.not_mem_nil, or_false,
      not_or] at hs
    obtain ⟨h1, h2, h3, h4, h5, h6, h7, h8, h9, h10, h11, h12, h13, h14,
      h15⟩ := hs
    unfold getPhaseFromStatus
    rw [if_neg h1, if_neg h2, if_neg h3, if_neg h4, if_neg h5, if_neg h6,
      if_neg h7, if_neg h8, if_neg h9, if_neg h10, if_neg h11, if_neg h12,
      if_neg h13, if_neg h14, if_neg h15]
  · intro s e
    unfold getPhaseFromStatus
    repeat' apply iteMemList
    all_goals decide

/-- C3 witness: the table theorem evaluated at concrete inputs — a live
match at minute 67 is in the second half, at minute 30 in the first half,
and an unknown code `SUSP` with the hypothesis discharged concretely maps
to `UNKNOWN`. -/
theorem getPhaseFromStatus_table_witness :
    (45 : Int) < 67 ∧ getPhaseFromStatus "LIVE" (some 67) = "SECOND_HALF" ∧
    (30 : Int) ≤ 45 ∧ getPhaseFromStatus "LIVE" (some 30) = "FIRST_HALF" ∧
    "SUSP" ∉ knownStatusCodes ∧
    getPhaseFromStatus "SUSP" (some 10) = "UNKNOWN" := by
  obtain ⟨-, -, -, -, -, -, -, -, -, -, -, -, -, -, hgt, hle, -, hunk, -⟩ :=
    getPhaseFromStatus_table
  exact ⟨by decide, hgt 67 (by decide), by decide, hle 30 (by decide),
    by decide, hunk "SUSP" (some 10) (by decide)⟩

/-- C7: the spec (and the source's own inline comment) say
`getFixtureStatistics` and `getFixtureLineups` never throw and return an
empty array whenever the provider request fails; the code instead does
`return this.makeRequest(...)` inside `try` without `await`, so the catch
clause never sees the promise rejection and the returned promise rejects.
At a failing provider outcome (HTTP 500, or a network failure) both
functions reject with the error instead of fulfilling with `[]`; on a 200
they fulfill with the body. -/
theorem getFixtureStatistics_rejects_on_failure :
    getFixtureStatistics (α := EventResponse) (.response 500 []) =
      .error (.httpStatus 500) ∧
    getFixtureStatistics (α := EventResponse) (.netFail "socket timeout") =
      .error (.network "socket timeout") ∧
    getFixtureLineups (α := EventResponse) (.response 500 []) =
      .error (.httpStatus 500) ∧
    getFixtureLineups (α := EventResponse) (.netFail "socket timeout") =
      .error (.network "socket timeout") ∧
    getFixtureStatistics (α := EventResponse) (.response 200 []) =
      .ok [] :=
  ⟨rfl, rfl, rfl, rfl, rfl⟩

/-- C8 counterexample: `mapEventToResponse` and `mapEventToMatchEvent` are
not deterministic functions of the DTO input — the same event mapped at
two runtime instants (different `Date.now()` / `uuidv4()` / clock
readings) yields different outputs, refuting "two calls with equal inputs
return equal outputs". -/
theorem mapEvent_nondeterminism_counterexample :
    mapEventToResponse genA sampleEvent "215662" ≠
      mapEventToResponse genB sampleEvent "215662" ∧
    mapEventToMatchEvent genA sampleEvent "215662" ≠
      mapEventToMatchEvent genB sampleEvent "215662" := by
  constructor
  · intro h
    have := congrArg MappedEvent.ts h
    simp [mapEventToResponse, genA, genB] at this
  · intro h
    have := congrArg MatchEventRec.id h
    simp [mapEventToMatchEvent, genA, genB] at this

/-- C8 amended: every Data Mapper output field that is computed from the
DTO input is deterministic — two calls of `mapEventToResponse` or
`mapEventToMatchEvent` on equal inputs agree on every field except the
generated `id` and the call-time `ts` timestamp (the only fields read from
the ambient runtime); the fixture mappers `mapFixtureToMatch` and
`mapFixtureToMatchState` read no ambient state at all. -/
theorem mapEvent_deterministic_except_generated (g g' : GenState)
    (event : EventResponse) (matchId : String) :
    (mapEventToResponse g event matchId).type =
      (mapEventToResponse g' event matchId).type ∧
    (mapEventToResponse g event matchId).minute =
      (mapEventToResponse g' event matchId).minute ∧
    (mapEventToResponse g event matchId).teamId =
      (mapEventToResponse g' event matchId).teamId ∧
    (mapEventToResponse g event matchId).playerName =
      (mapEventToResponse g' event matchId).playerName ∧
    (mapEventToResponse g event matchId).detail =
      (mapEventToResponse g' event matchId).detail ∧
    (mapEventToMatchEvent g event matchId).matchId =
      (mapEventToMatchEvent g' event matchId).matchId ∧
    (mapEventToMatchEvent g event matchId).type =
      (mapEventToMatchEvent g' event matchId).type ∧
    (mapEventToMatchEvent g event matchId).teamId =
      (mapEventToMatchEvent g' event matchId).teamId ∧
    (mapEventToMatchEvent g event matchId).playerId =
      (mapEventToMatchEvent g' event matchId).playerId ∧
    (mapEventToMatchEvent g event matchId).playerName =
      (mapEventToMatchEvent g' event matchId).playerName ∧
    (mapEventToMatchEvent g event matchId).detailJson =
      (mapEventToMatchEvent g' event matchId).detailJson ∧
    (mapEventToMatchEvent g event matchId).providerEventId =
      (mapEventToMatchEvent g' event matchId).providerEventId :=
  ⟨rfl, rfl, rfl, rfl, rfl, rfl, rfl, rfl, rfl, rfl, rfl, rfl⟩

/-- The scheduler's guard invariant: the `running` flag tracks exactly
whether a task body is in flight. -/
def runningTracksFlight (s : JobState) : Prop :=
  s.tasksInFlight = (if s.running then 1 else 0)

/-- Every atomic scheduler action preserves the guard invariant. -/
theorem jobStep_preserves_invariant (s : JobState) (a : JobAction)
    (h : runningTracksFlight s) : runningTracksFlight (jobStep s a) := by
  cases a <;>
    simp only [runningTracksFlight, jobStep, cronFireStep, triggerStep,
      finishStep] at h ⊢ <;>
    split_ifs at h ⊢ <;> simp_all <;> omega

/-- Any action sequence preserves the guard invariant. -/
theorem runJob_preserves_invariant (acts : List JobAction) :
    ∀ s : JobState, runningTracksFlight s →
      runningTracksFlight (runJob s acts) := by
  induction acts with
  | nil => intro s h; exact h
  | cons a rest ih =>
    intro s h
    exact ih (jobStep s a) (jobStep_preserves_invariant s a h)

/-- C4: per job name, at most one task body is ever in flight.  Over every
interleaving of atomic scheduler actions starting from a freshly registered
job, the in-flight count never exceeds 1; and in any state where the
`running` flag is set, a cron fire is skipped (state unchanged, no task
started — dropped, not queued) and a manual trigger is rejected (state
unchanged, no task started). -/
theorem jobScheduler_mutual_exclusion :
    (∀ (acts : List JobAction) (enabled : Bool),
      (runJob (registeredJobState enabled) acts).tasksInFlight ≤ 1) ∧
    (∀ s : JobState, s.running = true →
      cronFireStep s = (s, false) ∧ triggerStep s = (s, false)) := by
  constructor
  · intro acts enabled
    have h := runJob_preserves_invariant acts (registeredJobState enabled)
      (by simp [runningTracksFlight, registeredJobState])
    rw [runningTracksFlight] at h
    rw [h]
    split_ifs <;> omega
  · intro s hs
    exact ⟨by simp [cronFireStep, hs], by simp [triggerStep, hs]⟩

/-- C4 witness: the mutual-exclusion theorem at a concrete interleaving — a
cron fire that starts the task, then a racing manual trigger and a second
cron fire against the running job (both rejected, count stays 1), the task
finishing, and a fresh trigger — and the skip/reject equations at a
concrete running state. -/
theorem jobScheduler_mutual_exclusion_witness :
    (runJob (registeredJobState true)
      [JobAction.cronFire, JobAction.trigger, JobAction.cronFire,
       JobAction.finishTask, JobAction.trigger]).tasksInFlight ≤ 1 ∧
    (JobState.mk true true false 1).running = true ∧
    cronFireStep (JobState.mk true true false 1) =
      (JobState.mk true true false 1, false) ∧
    triggerStep (JobState.mk true true false 1) =
      (JobState.mk true true false 1, false) := by
  refine ⟨jobScheduler_mutual_exclusion.1 _ true, rfl, ?_⟩
  exact jobScheduler_mutual_exclusion.2 (JobState.mk true true false 1) rfl

/-- Characterization of the collected invalid tokens: exactly the tokens
paired positionally with a failed response whose error code is in the
permanent-invalid class. -/
theorem mem_collectInvalidTokens (responses : List SendResponse)
    (tokens : List DeviceTokenRec) (tok : DeviceTokenRec) :
    tok ∈ collectInvalidTokens responses tokens ↔
      ∃ r, (r, tok) ∈ responses.zip tokens ∧ r.success = false ∧
        isInvalidTokenError r.error = true := by
  simp only [collectInvalidTokens, List.mem_map, List.mem_filter]
  constructor
  · rintro ⟨⟨r, t⟩, ⟨hmem, hp⟩, rfl⟩
    simp only [Bool.and_eq_true, Bool.not_eq_eq_eq_not, Bool.not_true] at hp
    exact ⟨r, hmem, hp.1, hp.2⟩
  · rintro ⟨r, hmem, hf, hinv⟩
    exact ⟨(r, tok), ⟨hmem, by simp [hf, hinv]⟩, rfl⟩

/-- Folding the per-token deactivations equals one pass that deactivates a
row exactly when its id is among the invalid tokens. -/
theorem foldl_deactivate_eq_map (invs : List DeviceTokenRec) :
    ∀ store : List DeviceTokenRec,
      invs.foldl (fun st tok => deactivateToken st tok.id) store =
        store.map (fun t =>
          if invs.any (fun inv => inv.id == t.id) then
            { t with isActive := false }
          else t) := by
  induction invs with
  | nil => intro store; simp
  | cons inv rest ih =>
    intro store
    rw [List.foldl_cons, ih, deactivateToken, List.map_map]
    apply List.map_congr_left
    intro t _
    by_cases h : inv.id = t.id
    · have h1 : (t.id == inv.id) = true := beq_iff_eq.mpr h.symm
      have h2 : (inv.id == t.id) = true := beq_iff_eq.mpr h
      simp only [Function.comp_apply, h1, if_true, List.any_cons, h2,
        Bool.true_or, if_true]
      split_ifs <;> rfl
    · have h1 : (t.id == inv.id) = false := by
        simp only [beq_eq_false_iff_ne, ne_eq]
        exact fun hh => h hh.symm
      have h2 : (inv.id == t.id) = false := by
        simp only [beq_eq_false_iff_ne, ne_eq]
        exact h
      simp only [Function.comp_apply, h1, Bool.false_eq_true, if_false,
        List.any_cons, h2, Bool.false_or]

/-- C5: after `handleFailedTokens` processes a multicast response, a store
row is deactivated exactly when some response at its token's position
failed with a permanent invalid-token code
(`messaging/invalid-registration-token` or
`messaging/registration-token-not-registered`); every other row — in
particular tokens whose send merely failed transiently — is untouched and
so keeps its previous `active` value. -/
theorem handleFailedTokens_exactly_invalid (responses : List SendResponse)
    (tokens : List DeviceTokenRec) (store : List DeviceTokenRec)
    (hlen : responses.length = tokens.length) :
    handleFailedTokens responses tokens store =
      store.map (fun t =>
        if (collectInvalidTokens responses tokens).any
            (fun inv => inv.id == t.id) then
          { t with isActive := false }
        else t) ∧
    (∀ tok, tok ∈ collectInvalidTokens responses tokens ↔
      ∃ r, (r, tok) ∈ responses.zip tokens ∧ r.success = false ∧
        isInvalidTokenError r.error = true) := by
  exact ⟨foldl_deactivate_eq_map _ store,
    fun tok => mem_collectInvalidTokens responses tokens tok⟩

/-- C5 witness: three active tokens, the second reported
`registration-token-not-registered`: after dispatch exactly that one row
has `active = false` and the other two stay active. -/
theorem handleFailedTokens_witness :
    handleFailedTokens sampleResponses [tokenA, tokenB, tokenC]
        [tokenA, tokenB, tokenC] =
      [tokenA, { tokenB with isActive := false }, tokenC] ∧
    tokenA.isActive = true ∧ tokenC.isActive = true := by
  have h := handleFailedTokens_exactly_invalid sampleResponses
    [tokenA, tokenB, tokenC] [tokenA, tokenB, tokenC] (by decide)
  rw [h.1]
  refine ⟨?_, rfl, rfl⟩
  decide

/-- Appending one row adds exactly its own contribution to a
`provider_event_id` count. -/
theorem countEventPid_append_single (st : List MatchEventRec)
    (e : MatchEventRec) (pid : String) :
    countEventPid (st ++ [e]) pid =
      countEventPid st pid + (if e.providerEventId == pid then 1 else 0) := by
  simp only [countEventPid, List.countP_append, List.countP_cons,
    List.countP_nil, Nat.zero_add]

/-- The unique-constraint-checked insert of `processMatchEvent` preserves
"no two rows share a provider event id" on any store. -/
theorem processMatchEvent_preserves_noDup (g : GenState)
    (event : EventResponse) (matchId : String) (st : List MatchEventRec)
    (h : noDupProviderEventId st) :
    noDupProviderEventId (processMatchEvent g event matchId st).store := by
  rw [processMatchEvent]
  cases hf : st.find? (fun r =>
      r.matchId == matchId &&
        r.providerEventId ==
          (mapEventToMatchEvent g event matchId).providerEventId) with
  | some r => exact h
  | none =>
    rw [createMatchEvent]
    split_ifs with hany
    · exact h
    · intro pid
      rw [countEventPid_append_single]
      by_cases hpid :
          (mapEventToMatchEvent g event matchId).providerEventId == pid
      · have hz : countEventPid st pid = 0 := by
          rw [countEventPid, List.countP_eq_zero]
          intro a ha hpa
          have : ∃ a ∈ st, (a.providerEventId ==
              (mapEventToMatchEvent g event matchId).providerEventId) = true := by
            refine ⟨a, ha, ?_⟩
            have h1 : a.providerEventId = pid := by
              simpa using hpa
            have h2 : (mapEventToMatchEvent g event matchId).providerEventId
                = pid := by simpa using hpid
            simp [h1, h2]
          exact hany (List.any_eq_true.mpr this)
        rw [hz, if_pos hpid]
      · rw [if_neg hpid, Nat.add_zero]
        exact h pid

/-- C2: the dedup key is a deterministic function of (matchId, elapsed
minute, event type, team id) — equal for the same payload whatever the
ambient uuid/clock draws are — and ingesting the same provider event
payload twice against a store that does not yet contain its key creates
exactly one row: the first call inserts, the second call's
read-before-write finds the row and skips, one row with that key remains,
the store keeps provider-event-id uniqueness, and on any store whatsoever
`processMatchEvent` (with the migration's unique constraint as backstop)
preserves that no two rows ever share a `providerEventId`. -/
theorem processMatchEvent_dedup (g g' : GenState) (event : EventResponse)
    (matchId : String) (store : List MatchEventRec)
    (hfresh : countEventPid store
      (mkProviderEventId matchId event.time.elapsed event.type
        event.team.id) = 0)
    (hnodup : noDupProviderEventId store) :
    (mapEventToMatchEvent g event matchId).providerEventId =
      (mapEventToMatchEvent g' event matchId).providerEventId ∧
    (processMatchEvent g event matchId store).created = true ∧
    (processMatchEvent g' event matchId
      (processMatchEvent g event matchId store).store).created = false ∧
    countEventPid
      (processMatchEvent g' event matchId
        (processMatchEvent g event matchId store).store).store
      (mkProviderEventId matchId event.time.elapsed event.type
        event.team.id) = 1 ∧
    noDupProviderEventId
      (processMatchEvent g' event matchId
        (processMatchEvent g event matchId store).store).store ∧
    (∀ st, noDupProviderEventId st →
      noDupProviderEventId (processMatchEvent g event matchId st).store) := by
  set pid := mkProviderEventId matchId event.time.elapsed event.type
    event.team.id with hpid
  have hevpid : ∀ gen : GenState,
      (mapEventToMatchEvent gen event matchId).providerEventId = pid :=
    fun gen => rfl
  have hnone : store.find? (fun r =>
      r.matchId == matchId &&
        r.providerEventId ==
          (mapEventToMatchEvent g event matchId).providerEventId) = none := by
    rw [List.find?_eq_none]
    intro a ha hpa
    have hcnt : 0 < countEventPid store pid := by
      rw [countEventPid, List.countP_pos]
      refine ⟨a, ha, ?_⟩
      have := (Bool.and_eq_true _ _).mp hpa
      rw [hevpid g] at this
      exact this.2
    omega
  have hanyf : (store.any (fun r =>
      r.providerEventId ==
        (mapEventToMatchEvent g event matchId).providerEventId)) = false := by
    rw [Bool.eq_false_iff]
    intro hany
    obtain ⟨a, ha, hpa⟩ := List.any_eq_true.mp hany
    have hcnt : 0 < countEventPid store pid := by
      rw [countEventPid, List.countP_pos]
      rw [hevpid g] at hpa
      exact ⟨a, ha, hpa⟩
    omega
  have hrun1 : processMatchEvent g event matchId store =
      { store := store ++ [mapEventToMatchEvent g event matchId]
        created := true, raised := false } := by
    rw [processMatchEvent, hnone, createMatchEvent, if_neg]
    rw [hanyf]
    simp
  have hmem : mapEventToMatchEvent g event matchId ∈
      store ++ [mapEventToMatchEvent g event matchId] :=
    List.mem_append.mpr (Or.inr (List.mem_singleton.mpr rfl))
  have hfound : ∃ r, (store ++ [mapEventToMatchEvent g event matchId]).find?
      (fun r => r.matchId == matchId &&
        r.providerEventId ==
          (mapEventToMatchEvent g' event matchId).providerEventId) =
      some r := by
    cases hf : (store ++ [mapEventToMatchEvent g event matchId]).find?
        (fun r => r.matchId == matchId &&
          r.providerEventId ==
            (mapEventToMatchEvent g' event matchId).providerEventId) with
    | some r => exact ⟨r, rfl⟩
    | none =>
      exfalso
      have := List.find?_eq_none.mp hf _ hmem
      apply this
      simp [mapEventToMatchEvent]
  obtain ⟨r, hr⟩ := hfound
  have hrun2 : processMatchEvent g' event matchId
      (store ++ [mapEventToMatchEvent g event matchId]) =
      { store := store ++ [mapEventToMatchEvent g event matchId]
        created := false, raised := false } := by
    rw [processMatchEvent, hr]
  refine ⟨rfl, ?_, ?_, ?_, ?_, ?_⟩
  · rw [hrun1]
  · rw [hrun1, hrun2]
  · rw [hrun1, hrun2]
    rw [countEventPid_append_single]
    rw [hfresh, hevpid g]
    simp
  · rw [hrun1, hrun2]
    intro q
    rw [countEventPid_append_single]
    by_cases hq : (mapEventToMatchEvent g event matchId).providerEventId == q
    · have hqe : pid = q := by
        have h1 := beq_iff_eq.mp hq
        rw [hevpid g] at h1
        exact h1
      have hz : countEventPid store q = 0 := by
        rw [← hqe]
        exact hfresh
      rw [hz, if_pos hq]
    · rw [if_neg hq, Nat.add_zero]
      exact hnodup q
  · intro st h
    exact processMatchEvent_preserves_noDup g event matchId st h

/-- C2 witness: the dedup theorem at a concrete goal event against an
empty event table — the first ingestion inserts, the second skips, and
exactly one row with the composed key remains. -/
theorem processMatchEvent_dedup_witness :
    countEventPid [] (mkProviderEventId "215662" 23 "Goal" 50) = 0 ∧
    (processMatchEvent genA sampleEvent "215662" []).created = true ∧
    (processMatchEvent genB sampleEvent "215662"
      (processMatchEvent genA sampleEvent "215662" []).store).created =
        false ∧
    countEventPid
      (processMatchEvent genB sampleEvent "215662"
        (processMatchEvent genA sampleEvent "215662" []).store).store
      (mkProviderEventId "215662" 23 "Goal" 50) = 1 := by
  have h := processMatchEvent_dedup genA genB sampleEvent "215662" []
    (by rfl) (fun _ => Nat.zero_le 1)
  exact ⟨rfl, h.2.1, h.2.2.1, h.2.2.2.1⟩

/-- A zero triple-count means the duplicate-follow lookup finds nothing. -/
theorem hasFollowTriple_false_of_count_zero (db : FollowsDb)
    (u t e : String) (h : countFollowTriple db u t e = 0) :
    hasFollowTriple db u t e = false := by
  rw [hasFollowTriple, Bool.eq_false_iff]
  intro hany
  obtain ⟨a, ha, hpa⟩ := List.any_eq_true.mp hany
  have : 0 < countFollowTriple db u t e := by
    rw [countFollowTriple]
    exact List.countP_pos_iff.mpr ⟨a, ha, hpa⟩
  omega

/-- The row `mkFollowRow` creates matches its own request triple. -/
theorem mkFollowRow_matches_triple (newId : String) (req : FollowRequest) :
    ((mkFollowRow newId req).userId == req.userId &&
     (mkFollowRow newId req).entityType == req.entityType &&
     (mkFollowRow newId req).entityId == req.entityId) = true := by
  simp [mkFollowRow]

/-- C9: a successful `followEntity` stores notification preferences equal
to the defaults {goals, matchStart, matchEnd true; cards, substitutions,
lineups false} overridden field-by-field by the caller's partial object:
every provided flag takes the provided value, every absent flag the
default. -/
theorem followEntity_merged_preferences (newId : String)
    (req : FollowRequest) (db : FollowsDb) (f : FollowRec) (db1 : FollowsDb)
    (h : followEntity newId req db = .ok (f, db1)) :
    f.notificationPreferences =
      { goals := (req.notificationPreferences.getD noOverrides).goals.getD
          true
        cards := (req.notificationPreferences.getD noOverrides).cards.getD
          false
        substitutions :=
          (req.notificationPreferences.getD noOverrides).substitutions.getD
            false
        matchStart :=
          (req.notificationPreferences.getD noOverrides).matchStart.getD
            true
        matchEnd :=
          (req.notificationPreferences.getD noOverrides).matchEnd.getD true
        lineups :=
          (req.notificationPreferences.getD noOverrides).lineups.getD
            false } := by
  unfold followEntity at h
  repeat' split at h
  all_goals try exact Except.noConfusion h
  injection h with h2
  injection h2 with hf hdb
  subst hf
  rfl

/-- C9 witness: the merge theorem applied to a concrete successful follow
whose request overrides `goals := false` and `lineups := true`: the stored
flags are the defaults with exactly those two flipped. -/
theorem followEntity_merged_preferences_witness :
    (mkFollowRow "follow-1" sampleFollowRequest).notificationPreferences =
      { goals := false, cards := false, substitutions := false
        matchStart := true, matchEnd := true, lineups := true } := by
  have h : followEntity "follow-1" sampleFollowRequest sampleFollowsDb =
      .ok (mkFollowRow "follow-1" sampleFollowRequest,
        dbAfterFollow "follow-1" sampleFollowRequest sampleFollowsDb) := by
    rfl
  rw [followEntity_merged_preferences "follow-1" sampleFollowRequest
    sampleFollowsDb _ _ h]
  rfl

/-- C6 counterexample: the claim as stated is false — with an active user
and an existing target entity (league `L99`), but the user already at the
20-league follow limit (toward other leagues), the first `followEntity`
call for the fresh triple does not succeed: it throws the follow-limit
domain error. -/
theorem followEntity_first_call_limit_counterexample :
    followEntity "f-new" limitFollowRequest atLimitFollowsDb =
      .error (.followLimitReached "league" 20) := by
  decide

/-- C6 (amended with the follow-limit precondition the code enforces): for
every triple with an active user, an existing target entity, the per-type
follow limit not yet reached, and no existing follow for the triple, the
first `followEntity` call succeeds and appends exactly one row; afterwards
exactly one `follows` row holds that triple and every subsequent
`followEntity` call with the same triple fails with the `already
following` domain error (leaving the store unchanged, since nothing is
written on the error path). -/
theorem followEntity_unique_follow (newId : String) (req : FollowRequest)
    (db : FollowsDb) (user : UserRec)
    (hu : db.users.find? (fun u => u.id == req.userId) = some user)
    (hactive : user.isActive = true)
    (hval : validateEntity db req.entityType req.entityId = .ok ())
    (hlim : checkFollowLimits db req.userId req.entityType = .ok ())
    (hfresh : countFollowTriple db req.userId req.entityType req.entityId
      = 0) :
    followEntity newId req db =
      .ok (mkFollowRow newId req, dbAfterFollow newId req db) ∧
    countFollowTriple (dbAfterFollow newId req db) req.userId
      req.entityType req.entityId = 1 ∧
    (∀ newId2, followEntity newId2 req (dbAfterFollow newId req db) =
      .error (.alreadyFollowing req.entityType)) := by
  have hdup : hasFollowTriple db req.userId req.entityType req.entityId
      = false :=
    hasFollowTriple_false_of_count_zero db _ _ _ hfresh
  refine ⟨?_, ?_, ?_⟩
  · simp only [followEntity, hu, hactive, Bool.not_true,
      Bool.false_eq_true, if_false, hval, hdup, hlim]
  · simp only [countFollowTriple, dbAfterFollow, List.countP_append]
    rw [countFollowTriple] at hfresh
    rw [hfresh]
    simp [mkFollowRow_matches_triple]
  · intro newId2
    have hu2 : (dbAfterFollow newId req db).users.find?
        (fun u => u.id == req.userId) = some user := hu
    have hval2 : validateEntity (dbAfterFollow newId req db)
        req.entityType req.entityId = .ok () := hval
    have hdup2 : hasFollowTriple (dbAfterFollow newId req db) req.userId
        req.entityType req.entityId = true := by
      rw [hasFollowTriple]
      refine List.any_eq_true.mpr ⟨mkFollowRow newId req, ?_,
        mkFollowRow_matches_triple newId req⟩
      simp [dbAfterFollow]
    simp only [followEntity, hu2, hactive, Bool.not_true,
      Bool.false_eq_true, if_false, hval2, hdup2, if_true]

/-- C6 witness: the amended theorem at a concrete store — the first follow
of team `t50` by active user `u1` succeeds, exactly one row for the triple
exists afterwards, and a repeat call fails with `already following`. -/
theorem followEntity_unique_follow_witness :
    followEntity "f1" sampleFollowRequest sampleFollowsDb =
      .ok (mkFollowRow "f1" sampleFollowRequest,
        dbAfterFollow "f1" sampleFollowRequest sampleFollowsDb) ∧
    countFollowTriple (dbAfterFollow "f1" sampleFollowRequest
      sampleFollowsDb) "u1" "team" "t50" = 1 ∧
    followEntity "f2" sampleFollowRequest
      (dbAfterFollow "f1" sampleFollowRequest sampleFollowsDb) =
      .error (.alreadyFollowing "team") := by
  have h := followEntity_unique_follow "f1" sampleFollowRequest
    sampleFollowsDb { id := "u1", isActive := true } rfl rfl rfl rfl rfl
  exact ⟨h.1, h.2.1, h.2.2 "f2"⟩

/-- With any of the uppercase entity-type strings the convenience methods
pass, `followEntity` throws on some validation step for every input — it
can never return `ok`, because `validateEntity` accepts only the lowercase
strings. -/
theorem followEntity_uppercase_always_error (newId : String)
    (req : FollowRequest) (db : FollowsDb)
    (hty : req.entityType = "TEAM" ∨ req.entityType = "LEAGUE" ∨
      req.entityType = "MATCH") :
    ∃ err, followEntity newId req db = .error err := by
  have hval : validateEntity db req.entityType req.entityId =
      .error (.invalidEntityType req.entityType) := by
    rcases hty with h | h | h <;> rw [h] <;> rfl
  cases hfind : db.users.find? (fun u => u.id == req.userId) with
  | none =>
    exact ⟨.userNotFoundOrInactive, by simp only [followEntity, hfind]⟩
  | some user =>
    cases hact : user.isActive with
    | false =>
      exact ⟨.userNotFoundOrInactive,
        by simp only [followEntity, hfind, hact, Bool.not_false, if_true]⟩
    | true =>
      exact ⟨.invalidEntityType req.entityType,
        by simp only [followEntity, hfind, hact, Bool.not_true,
          Bool.false_eq_true, if_false, hval]⟩

/-- C10 counterexample: the claim as stated — "for every userId ... always
fail with an 'Invalid entity type' error" — is false: when the user id
does not resolve to an active user the call fails earlier with the `User
not found or inactive` error, not the invalid-entity-type one. -/
theorem followTeam_user_error_counterexample :
    followTeam "f1" "ghost" "t50" none emptyFollowsDb =
      .error .userNotFoundOrInactive ∧
    FollowError.userNotFoundOrInactive ≠
      FollowError.invalidEntityType "TEAM" := by
  exact ⟨rfl, by decide⟩

/-- C10 (amended): the convenience methods pass uppercase entity types
(`TEAM`/`LEAGUE`/`MATCH`) while `validateEntity` accepts only lowercase,
so whenever the user validation passes (the userId resolves to an active
user) they fail with the `Invalid entity type` domain error; for every
input whatsoever they fail with some error — never creating a Follow row —
and consequently every `bulkFollowTeams` call creates no Follow, returning
every team id in `failed` and the store unchanged. -/
theorem followConvenience_uppercase_always_fails :
    (∀ (newId userId entityId : String) (prefs : Option PrefOverrides)
        (db : FollowsDb) (user : UserRec),
      db.users.find? (fun u => u.id == userId) = some user →
      user.isActive = true →
      followTeam newId userId entityId prefs db =
        .error (.invalidEntityType "TEAM") ∧
      followLeague newId userId entityId prefs db =
        .error (.invalidEntityType "LEAGUE") ∧
      followMatch newId userId entityId prefs db =
        .error (.invalidEntityType "MATCH")) ∧
    (∀ (newId userId entityId : String) (prefs : Option PrefOverrides)
        (db : FollowsDb) (r : FollowRec × FollowsDb),
      followTeam newId userId entityId prefs db ≠ .ok r ∧
      followLeague newId userId entityId prefs db ≠ .ok r ∧
      followMatch newId userId entityId prefs db ≠ .ok r) ∧
    (∀ (newIds : Nat → String) (userId : String) (teamIds : List String)
        (db : FollowsDb),
      bulkFollowTeams newIds userId teamIds db = ([], teamIds, db)) := by
  refine ⟨?_, ?_, ?_⟩
  · intro newId userId entityId prefs db user hfind hact
    refine ⟨?_, ?_, ?_⟩ <;>
      simp only [followTeam, followLeague, followMatch, followEntity,
        hfind, hact, Bool.not_true, Bool.false_eq_true, if_false] <;>
      rfl
  · intro newId userId entityId prefs db r
    refine ⟨?_, ?_, ?_⟩
    · obtain ⟨err, herr⟩ := followEntity_uppercase_always_error newId
        { userId := userId, entityType := "TEAM", entityId := entityId
          notificationPreferences := prefs } db (Or.inl rfl)
      rw [followTeam, herr]
      exact fun hc => Except.noConfusion hc
    · obtain ⟨err, herr⟩ := followEntity_uppercase_always_error newId
        { userId := userId, entityType := "LEAGUE", entityId := entityId
          notificationPreferences := prefs } db (Or.inr (Or.inl rfl))
      rw [followLeague, herr]
      exact fun hc => Except.noConfusion hc
    · obtain ⟨err, herr⟩ := followEntity_uppercase_always_error newId
        { userId := userId, entityType := "MATCH", entityId := entityId
          notificationPreferences := prefs } db (Or.inr (Or.inr rfl))
      rw [followMatch, herr]
      exact fun hc => Except.noConfusion hc
  · intro newIds userId teamIds
    induction teamIds generalizing newIds with
    | nil => intro db; rfl
    | cons t rest ih =>
      intro db
      obtain ⟨err, herr⟩ := followEntity_uppercase_always_error (newIds 0)
        { userId := userId, entityType := "TEAM", entityId := t
          notificationPreferences := none } db (Or.inl rfl)
      simp only [bulkFollowTeams, followTeam, herr,
        ih (fun n => newIds (n + 1)) db]

/-- C10 witness: the amended theorem applied to an active user — all three
convenience methods fail with the invalid-entity-type error, none can
return ok, and a bulk follow of two teams reports both as failed with the
store untouched. -/
theorem followConvenience_uppercase_witness :
    followTeam "f1" "u1" "t50" none sampleFollowsDb =
      .error (.invalidEntityType "TEAM") ∧
    followLeague "f1" "u1" "L99" none sampleFollowsDb =
      .error (.invalidEntityType "LEAGUE") ∧
    followMatch "f1" "u1" "m1" none sampleFollowsDb =
      .error (.invalidEntityType "MATCH") ∧
    bulkFollowTeams (fun _ => "f1") "u1" ["t50", "t51"] sampleFollowsDb =
      ([], ["t50", "t51"], sampleFollowsDb) := by
  have h1 := followConvenience_uppercase_always_fails.1 "f1" "u1" "t50"
    none sampleFollowsDb { id := "u1", isActive := true } rfl rfl
  have h2 := followConvenience_uppercase_always_fails.1 "f1" "u1" "L99"
    none sampleFollowsDb { id := "u1", isActive := true } rfl rfl
  have h3 := followConvenience_uppercase_always_fails.1 "f1" "u1" "m1"
    none sampleFollowsDb { id := "u1", isActive := true } rfl rfl
  have h4 := followConvenience_uppercase_always_fails.2.2 (fun _ => "f1")
    "u1" ["t50", "t51"] sampleFollowsDb
  exact ⟨h1.1, h2.2.1, h3.2.2, h4⟩

/-! ### C1 lemma chain: the ingestion pipeline seen through `mcuView` -/

/-- `processSingleFixture` moves the (rows, created, updated) projection by
`mcuStep`: the team/venue/match-state writes do not touch it. -/
theorem mcuView_processSingleFixture (l : Bool) (st : IngestState)
    (fx : FixtureResponse) :
    mcuView (processSingleFixture l st fx) = mcuStep (mcuView st) fx := by
  simp only [processSingleFixture, mcuStep, mcuView]
  split_ifs <;> rfl

/-- The inner batch loop folds `mcuStep` over the batch. -/
theorem mcuView_processBatchList (l : Bool) (fxs : List FixtureResponse) :
    ∀ st, mcuView (processBatchList l st fxs) =
      List.foldl mcuStep (mcuView st) fxs := by
  induction fxs with
  | nil => intro st; rfl
  | cons x rest ih =>
    intro st
    rw [processBatchList, List.foldl_cons, List.foldl_cons,
      ← mcuView_processSingleFixture l st x]
    exact ih (processSingleFixture l st x)

/-- `chunkArray` on the empty list. -/
theorem chunkArray_nil (b : Nat) : chunkArray ([] : List α) b = [] := by
  rw [chunkArray]
  split_ifs <;> rfl

/-- `chunkArray` peels one chunk off a non-empty list (positive size). -/
theorem chunkArray_cons (x : α) (rest : List α) (b : Nat) (hb : b ≠ 0) :
    chunkArray (x :: rest) b =
      (x :: rest).take b :: chunkArray ((x :: rest).drop b) b := by
  rw [chunkArray, dif_neg hb]

/-- The chunked batch loop equals folding `mcuStep` over the flat fixture
list: the per-chunk `matchesProcessed` bump is invisible to the
projection. -/
theorem mcuView_processFixtureBatch_le (b : Nat) (hb : 0 < b) (l : Bool) :
    ∀ (n : Nat) (fxs : List FixtureResponse), fxs.length ≤ n →
      ∀ st, mcuView (processFixtureBatch b l st fxs) =
        List.foldl mcuStep (mcuView st) fxs := by
  intro n
  induction n with
  | zero =>
    intro fxs hlen st
    have hnil : fxs = [] := List.eq_nil_of_length_eq_zero
      (Nat.le_zero.mp hlen)
    subst hnil
    rw [processFixtureBatch, chunkArray_nil]
    rfl
  | succ n ih =>
    intro fxs hlen st
    cases fxs with
    | nil =>
      rw [processFixtureBatch, chunkArray_nil]
      rfl
    | cons x rest =>
      rw [processFixtureBatch, chunkArray_cons x rest b hb.ne',
        List.foldl_cons]
      have hdef : ∀ (st2 : IngestState) (ys : List FixtureResponse),
          (chunkArray ys b).foldl
            (fun st batch =>
              let st1 := processBatchList l st batch
              { st1 with metrics := { st1.metrics with
                  matchesProcessed :=
                    st1.metrics.matchesProcessed + batch.length } }) st2 =
          processFixtureBatch b l st2 ys := fun _ _ => rfl
      rw [hdef]
      have hdroplen : ((x :: rest).drop b).length ≤ n := by
        simp only [List.length_drop, List.length_cons]
        simp only [List.length_cons] at hlen
        omega
      rw [ih ((x :: rest).drop b) hdroplen]
      have hbump : mcuView
          (let st1 := processBatchList l st ((x :: rest).take b)
           { st1 with metrics := { st1.metrics with
               matchesProcessed := st1.metrics.matchesProcessed +
                 ((x :: rest).take b).length } }) =
          mcuView (processBatchList l st ((x :: rest).take b)) := rfl
      rw [hbump, mcuView_processBatchList, ← List.foldl_append,
        List.take_append_drop]

/-- Wrapper of the previous lemma at the list's own length. -/
theorem mcuView_processFixtureBatch (b : Nat) (hb : 0 < b) (l : Bool)
    (fxs : List FixtureResponse) (st : IngestState) :
    mcuView (processFixtureBatch b l st fxs) =
      List.foldl mcuStep (mcuView st) fxs :=
  mcuView_processFixtureBatch_le b hb l fxs.length fxs (Nat.le_refl _) st

/-- One league iteration folds `mcuStep` over that league's fixtures: the
`apiCalls` bump and the empty-list early return are invisible to the
projection. -/
theorem mcuView_ingestLeagueStep (b : Nat) (hb : 0 < b)
    (st : IngestState) (fxs : List FixtureResponse) :
    mcuView (ingestLeagueStep b st fxs) =
      List.foldl mcuStep (mcuView st) fxs := by
  cases fxs with
  | nil => rfl
  | cons x rest =>
    rw [ingestLeagueStep]
    simp only [List.isEmpty_cons, Bool.false_eq_true, if_false]
    rw [mcuView_processFixtureBatch b hb false]
    rfl

/-- A whole `ingestDailyFixtures` run folds `mcuStep` over the
concatenation of the per-league fixture lists, starting from the carried
store with freshly reset counters. -/
theorem mcuView_ingestDailyFixtures (b : Nat) (hb : 0 < b)
    (lf : List (List FixtureResponse)) :
    ∀ st, mcuView (ingestDailyFixtures b lf st) =
      List.foldl mcuStep
        { rows := st.matchesTable, created := 0, updated := 0 }
        lf.flatten := by
  have haux : ∀ (ls : List (List FixtureResponse)) (st1 : IngestState),
      mcuView (ls.foldl (ingestLeagueStep b) st1) =
        List.foldl mcuStep (mcuView st1) ls.flatten := by
    intro ls
    induction ls with
    | nil => intro st1; rfl
    | cons fxs rest ih =>
      intro st1
      rw [List.foldl_cons, ih, mcuView_ingestLeagueStep b hb,
        ← List.foldl_append, List.flatten_cons]
  intro st
  rw [ingestDailyFixtures, haux]
  rfl

/-- An element of `updateFirst p f l` is an element of `l` or the image
under `f` of an element of `l` satisfying `p`. -/
theorem mem_updateFirst {p : α → Bool} {f : α → α} :
    ∀ {l : List α} {x : α}, x ∈ updateFirst p f l →
      x ∈ l ∨ ∃ y ∈ l, p y = true ∧ x = f y := by
  intro l
  induction l with
  | nil => intro x hx; exact absurd hx (List.not_mem_nil x)
  | cons a rest ih =>
    intro x hx
    rw [updateFirst] at hx
    by_cases hp : p a
    · rw [if_pos hp] at hx
      rcases List.mem_cons.mp hx with h | h
      · exact Or.inr ⟨a, List.mem_cons_self a rest, hp, h⟩
      · exact Or.inl (List.mem_cons_of_mem a h)
    · rw [if_neg hp] at hx
      rcases List.mem_cons.mp hx with h | h
      · exact Or.inl (h ▸ List.mem_cons_self a rest)
      · rcases ih h with h2 | ⟨y, hy, hpy, hxy⟩
        · exact Or.inl (List.mem_cons_of_mem a h2)
        · exact Or.inr ⟨y, List.mem_cons_of_mem a hy, hpy, hxy⟩

/-- `updateFirst` with an id-preserving update leaves the id column
unchanged. -/
theorem updateFirst_map_id (p : α → Bool) (f : α → α) (g : α → β)
    (hf : ∀ x, g (f x) = g x) :
    ∀ l : List α, (updateFirst p f l).map g = l.map g := by
  intro l
  induction l with
  | nil => rfl
  | cons a rest ih =>
    rw [updateFirst]
    by_cases hp : p a
    · rw [if_pos hp, List.map_cons, List.map_cons, hf]
    · rw [if_neg hp, List.map_cons, List.map_cons, ih]

/-- A primary-key count only looks at the id column. -/
theorem countMatchId_eq_countP_map (ms : List MatchRec) (s : String) :
    countMatchId ms s = (ms.map (fun m => m.id)).countP (fun i => i == s) := by
  rw [countMatchId, List.countP_map]
  rfl

/-- Appending one row adds exactly its own contribution to a primary-key
count. -/
theorem countMatchId_append_single (ms : List MatchRec) (m : MatchRec)
    (s : String) :
    countMatchId (ms ++ [m]) s =
      countMatchId ms s + (if m.id == s then 1 else 0) := by
  simp only [countMatchId, List.countP_append, List.countP_cons,
    List.countP_nil, Nat.zero_add]

/-- The update branch of `mcuStep` does not change the id column, hence no
primary-key count. -/
theorem countMatchId_updateFirst (fx : FixtureResponse)
    (ms : List MatchRec) (s : String) :
    countMatchId (updateFirst (fixtureKey fx.fixture.id)
      (fun r => updateExistingMatch r fx) ms) s = countMatchId ms s := by
  rw [countMatchId_eq_countP_map, countMatchId_eq_countP_map,
    updateFirst_map_id (fixtureKey fx.fixture.id)
      (fun r => updateExistingMatch r fx) (fun m => m.id) (fun x => rfl)]

/-- When the lookup misses, no row carries the fixture's primary key. -/
theorem countMatchId_zero_of_no_key (fx : FixtureResponse)
    (ms : List MatchRec)
    (hmiss : ms.any (fixtureKey fx.fixture.id) = false) :
    countMatchId ms (toString fx.fixture.id) = 0 := by
  rw [countMatchId, List.countP_eq_zero]
  intro m hm hid
  have : (fixtureKey fx.fixture.id m) = true := by
    rw [fixtureKey, Bool.or_eq_true]
    exact Or.inl hid
  have hnone := (Bool.eq_false_iff.mp hmiss)
  exact hnone (List.any_eq_true.mpr ⟨m, hm, this⟩)

/-- `mcuStep` preserves key coherence of the rows. -/
theorem mcuStep_coherent (m : MCUView) (fx : FixtureResponse)
    (h : rowsCoherent m.rows) : rowsCoherent (mcuStep m fx).rows := by
  rw [mcuStep]
  split_ifs with hc
  · intro x hx
    rcases mem_updateFirst hx with hold | ⟨y, hy, hkey, hxy⟩
    · exact h x hold
    · subst hxy
      have hyid : y.id = toString fx.fixture.id := by
        rcases Bool.or_eq_true _ _ |>.mp (by rwa [fixtureKey] at hkey)
          with h1 | h1
        · exact beq_iff_eq.mp h1
        · rw [h y hy, beq_iff_eq.mp h1]
      exact hyid
  · intro x hx
    rcases List.mem_append.mp hx with hold | hnew
    · exact h x hold
    · rw [List.mem_singleton.mp hnew, mapFixtureToMatch]

/-- `mcuStep` never decreases a primary-key count. -/
theorem mcuStep_count_mono (m : MCUView) (fx : FixtureResponse)
    (s : String) :
    countMatchId m.rows s ≤ countMatchId (mcuStep m fx).rows s := by
  rw [mcuStep]
  split_ifs with hc
  · rw [countMatchId_updateFirst]
  · rw [countMatchId_append_single]
    exact Nat.le_add_right _ _

/-- `mcuStep` preserves primary-key uniqueness of the rows. -/
theorem mcuStep_noDup (m : MCUView) (fx : FixtureResponse)
    (h : noDupMatchId m.rows) : noDupMatchId (mcuStep m fx).rows := by
  rw [mcuStep]
  split_ifs with hc
  · intro s
    rw [countMatchId_updateFirst]
    exact h s
  · intro s
    rw [countMatchId_append_single]
    by_cases hs : ((mapFixtureToMatch fx).id == s) = true
    · have hz : countMatchId m.rows s = 0 := by
        have h1 : (mapFixtureToMatch fx).id = s := beq_iff_eq.mp hs
        have h2 : (toString fx.fixture.id) = s := h1
        rw [← h2]
        exact countMatchId_zero_of_no_key fx m.rows
          (Bool.not_eq_true _ ▸ Bool.eq_false_iff.mpr (by
            intro hcc
            exact hc hcc))
      rw [hz, if_pos hs]
    · rw [if_neg hs, Nat.add_zero]
      exact h s

/-- After `mcuStep` processes a fixture, a row with that fixture's
primary key exists (key coherence lets a provider-id hit stand in for an
id hit). -/
theorem mcuStep_own_key (m : MCUView) (fx : FixtureResponse)
    (hcoh : rowsCoherent m.rows) :
    1 ≤ countMatchId (mcuStep m fx).rows (toString fx.fixture.id) := by
  rw [mcuStep]
  split_ifs with hc
  · rw [countMatchId_updateFirst]
    obtain ⟨y, hy, hkey⟩ := List.any_eq_true.mp hc
    have hid : y.id = toString fx.fixture.id := by
      rcases Bool.or_eq_true _ _ |>.mp (by rwa [fixtureKey] at hkey)
        with h1 | h1
      · exact beq_iff_eq.mp h1
      · rw [hcoh y hy, beq_iff_eq.mp h1]
    rw [countMatchId]
    exact List.countP_pos_iff.mpr ⟨y, hy, beq_iff_eq.mpr hid⟩
  · rw [countMatchId_append_single]
    have h1 : ((mapFixtureToMatch fx).id == toString fx.fixture.id) = true :=
      beq_iff_eq.mpr rfl
    rw [h1]
    simp

/-- Folding `mcuStep` preserves key coherence and primary-key uniqueness,
never decreases a primary-key count, and leaves at least one row for every
processed fixture's id. -/
theorem foldl_mcuStep_invariants (fxs : List FixtureResponse) :
    ∀ m : MCUView, rowsCoherent m.rows → noDupMatchId m.rows →
      rowsCoherent (List.foldl mcuStep m fxs).rows ∧
      noDupMatchId (List.foldl mcuStep m fxs).rows ∧
      (∀ s, countMatchId m.rows s ≤
        countMatchId (List.foldl mcuStep m fxs).rows s) ∧
      (∀ fx ∈ fxs, 1 ≤
        countMatchId (List.foldl mcuStep m fxs).rows
          (toString fx.fixture.id)) := by
  induction fxs with
  | nil =>
    intro m hcoh hdup
    exact ⟨hcoh, hdup, fun s => Nat.le_refl _,
      fun fx hfx => absurd hfx (List.not_mem_nil fx)⟩
  | cons fx rest ih =>
    intro m hcoh hdup
    rw [List.foldl_cons]
    obtain ⟨ihcoh, ihdup, ihmono, ihmem⟩ := ih (mcuStep m fx)
      (mcuStep_coherent m fx hcoh) (mcuStep_noDup m fx hdup)
    refine ⟨ihcoh, ihdup, ?_, ?_⟩
    · intro s
      exact Nat.le_trans (mcuStep_count_mono m fx s) (ihmono s)
    · intro fy hfy
      rcases List.mem_cons.mp hfy with hhead | htail
      · subst hhead
        exact Nat.le_trans (mcuStep_own_key m fy hcoh)
          (ihmono (toString fy.fixture.id))
      · exact ihmem fy htail

/-- When every fixture of the list already has a row with its primary key,
folding `mcuStep` takes the update branch at every step: nothing is
created, the updated counter grows by the list length, and the id column
is unchanged. -/
theorem foldl_mcuStep_all_existing (fxs : List FixtureResponse) :
    ∀ m : MCUView,
      (∀ fx ∈ fxs, 1 ≤ countMatchId m.rows (toString fx.fixture.id)) →
      (List.foldl mcuStep m fxs).created = m.created ∧
      (List.foldl mcuStep m fxs).updated = m.updated + fxs.length ∧
      (List.foldl mcuStep m fxs).rows.map (fun r => r.id) =
        m.rows.map (fun r => r.id) := by
  induction fxs with
  | nil => intro m hmem; exact ⟨rfl, rfl, rfl⟩
  | cons fx rest ih =>
    intro m hmem
    have hhead : 1 ≤ countMatchId m.rows (toString fx.fixture.id) :=
      hmem fx (List.mem_cons_self fx rest)
    have hc : m.rows.any (fixtureKey fx.fixture.id) = true := by
      rw [countMatchId] at hhead
      obtain ⟨y, hy, hp⟩ := List.countP_pos_iff.mp hhead
      refine List.any_eq_true.mpr ⟨y, hy, ?_⟩
      rw [fixtureKey, Bool.or_eq_true]
      exact Or.inl hp
    have hstep : mcuStep m fx =
        { rows := updateFirst (fixtureKey fx.fixture.id)
            (fun r => updateExistingMatch r fx) m.rows
          created := m.created
          updated := m.updated + 1 } := by
      rw [mcuStep, if_pos hc]
    have hids : (mcuStep m fx).rows.map (fun r => r.id) =
        m.rows.map (fun r => r.id) := by
      rw [hstep]
      exact updateFirst_map_id (fixtureKey fx.fixture.id)
        (fun r => updateExistingMatch r fx) (fun r => r.id)
        (fun x => rfl) m.rows
    have hcounts : ∀ s, countMatchId (mcuStep m fx).rows s =
        countMatchId m.rows s := by
      intro s
      rw [countMatchId_eq_countP_map, countMatchId_eq_countP_map, hids]
    rw [List.foldl_cons]
    obtain ⟨ihc, ihu, ihi⟩ := ih (mcuStep m fx) (by
      intro fy hfy
      rw [hcounts]
      exact hmem fy (List.mem_cons_of_mem fx hfy))
    refine ⟨?_, ?_, ?_⟩
    · rw [ihc, hstep]
    · rw [ihu, hstep]
      simp only [List.length_cons]
      omega
    · rw [ihi, hids]

/-- C1: re-ingesting identical provider data is idempotent on the Match
table.  Starting from an empty store, running `ingestDailyFixtures` twice
over the same per-league fixture lists leaves exactly one Match row per
provider fixture id; the second run creates nothing (`matchesCreated = 0`)
and, as long as any fixture was returned at all (in particular whenever a
mutable field changed), reports `matchesUpdated > 0` — every fixture of
the second run takes the update path. -/
theorem ingestDailyFixtures_idempotent (b : Nat) (hb : 0 < b)
    (lf : List (List FixtureResponse)) (st0 : IngestState)
    (h0 : st0.matchesTable = []) :
    (∀ fxs ∈ lf, ∀ fx ∈ fxs,
      countMatchId
        (ingestDailyFixtures b lf
          (ingestDailyFixtures b lf st0)).matchesTable
        (toString fx.fixture.id) = 1) ∧
    (ingestDailyFixtures b lf
      (ingestDailyFixtures b lf st0)).metrics.matchesCreated = 0 ∧
    (lf.flatten ≠ [] →
      0 < (ingestDailyFixtures b lf
        (ingestDailyFixtures b lf st0)).metrics.matchesUpdated) := by
  have v1 := mcuView_ingestDailyFixtures b hb lf st0
  rw [h0] at v1
  set M1 := List.foldl mcuStep
    { rows := [], created := 0, updated := 0 } lf.flatten with hM1
  have v2 := mcuView_ingestDailyFixtures b hb lf
    (ingestDailyFixtures b lf st0)
  have hrows1 : (ingestDailyFixtures b lf st0).matchesTable = M1.rows :=
    congrArg MCUView.rows v1
  rw [hrows1] at v2
  obtain ⟨hcoh1, hdup1, hmono1, hmem1⟩ :=
    foldl_mcuStep_invariants lf.flatten
      { rows := [], created := 0, updated := 0 }
      (fun m hm => absurd hm (List.not_mem_nil m))
      (fun s => by rw [countMatchId, List.countP_nil]; omega)
  rw [← hM1] at hdup1 hmem1
  obtain ⟨hc2, hu2, hi2⟩ := foldl_mcuStep_all_existing lf.flatten
    { rows := M1.rows, created := 0, updated := 0 }
    (fun fx hfx => hmem1 fx hfx)
  have e1 : ({ rows := M1.rows, created := 0, updated := 0 } :
      MCUView).created = 0 := rfl
  have e2 : ({ rows := M1.rows, created := 0, updated := 0 } :
      MCUView).updated = 0 := rfl
  have e3 : ({ rows := M1.rows, created := 0, updated := 0 } :
      MCUView).rows = M1.rows := rfl
  rw [e1] at hc2
  rw [e2] at hu2
  rw [e3] at hi2
  refine ⟨?_, ?_, ?_⟩
  · intro fxs hfxs fx hfx
    have hflat : fx ∈ lf.flatten :=
      List.mem_flatten.mpr ⟨fxs, hfxs, hfx⟩
    show countMatchId
      (mcuView (ingestDailyFixtures b lf
        (ingestDailyFixtures b lf st0))).rows (toString fx.fixture.id) = 1
    rw [v2, countMatchId_eq_countP_map, hi2, ← countMatchId_eq_countP_map]
    have hge := hmem1 fx hflat
    have hle := hdup1 (toString fx.fixture.id)
    omega
  · show (mcuView (ingestDailyFixtures b lf
      (ingestDailyFixtures b lf st0))).created = 0
    rw [v2, hc2]
  · intro hne
    show 0 < (mcuView (ingestDailyFixtures b lf
      (ingestDailyFixtures b lf st0))).updated
    rw [v2, hu2]
    have hlen : 0 < lf.flatten.length := List.length_pos.mpr hne
    omega

/-- C1 witness: the idempotence theorem at a concrete run — one league
returning one fixture (id 215662), batch size 50, empty initial store:
after ingesting twice there is exactly one row with id `215662`, the
second run created nothing and updated more than zero. -/
theorem ingestDailyFixtures_idempotent_witness :
    0 < 50 ∧ emptyIngestState.matchesTable = [] ∧
    countMatchId
      (ingestDailyFixtures 50 [[sampleFixture]]
        (ingestDailyFixtures 50 [[sampleFixture]]
          emptyIngestState)).matchesTable "215662" = 1 ∧
    (ingestDailyFixtures 50 [[sampleFixture]]
      (ingestDailyFixtures 50 [[sampleFixture]]
        emptyIngestState)).metrics.matchesCreated = 0 ∧
    0 < (ingestDailyFixtures 50 [[sampleFixture]]
      (ingestDailyFixtures 50 [[sampleFixture]]
        emptyIngestState)).metrics.matchesUpdated := by
  have h := ingestDailyFixtures_idempotent 50 (by decide)
    [[sampleFixture]] emptyIngestState rfl
  refine ⟨by decide, rfl, ?_, h.2.1, h.2.2 (by decide)⟩
  exact h.1 [sampleFixture] (List.mem_singleton.mpr rfl) sampleFixture
    (List.mem_singleton.mpr rfl)
